import Mathlib

/-!
# sdl_wrapper.c : coordinate transform, event dispatch, drawing queue, tick timer

A shallow embedding of `src/sdl_wrapper.c`.

* `double` values are modelled by rationals (`ℚ`): every operation the file
  performs on them (`+`, `-`, `*`, `/`, `<`, `round`) is exact, so the
  intermediate rounding of IEEE arithmetic is not part of the model.
* The globals of the translation unit are the fields of `SdlState`
  (viewport, window size, overlay queues, renderer command log) and of
  `InputState` / `Handlers` (click state, key timestamp, callback slots).
* Calls into SDL are recorded: render calls are appended to a command log,
  handler calls to a call trace.
* The registered handlers are code of the host application. A slot is modelled
  by whether it is set; a call is recorded with its arguments, and a handler is
  taken not to re-register slots, nor to touch the click state or SDL's event
  queue, while it runs.
* Assertion failures are `none`.
-/

namespace SdlWrapper

/-! ## Vectors (vector.h) -/

/-- A two-dimensional vector of `double`s. -/
structure vector_t where
  x : ℚ
  y : ℚ
deriving DecidableEq, Repr

/-- Modelled from the spec: `vec_add` is declared in vector.h, which is not
part of the source file; it is the component-wise sum. -/
def vec_add (v1 v2 : vector_t) : vector_t :=
  { x := v1.x + v2.x, y := v1.y + v2.y }

/-- Modelled from the spec: `vec_subtract` is declared in vector.h, which is not
part of the source file; it is the component-wise difference ("scenePos - center"). -/
def vec_subtract (v1 v2 : vector_t) : vector_t :=
  { x := v1.x - v2.x, y := v1.y - v2.y }

/-- Modelled from the spec: `vec_multiply` is declared in vector.h, which is not
part of the source file; it scales both components ("half of that", "scale * (...)"). -/
def vec_multiply (scalar : ℚ) (v : vector_t) : vector_t :=
  { x := scalar * v.x, y := scalar * v.y }

/-! ## libm / C conversions -/

/-- The C library `round`: nearest integer, halfway cases away from zero. -/
def c_round (x : ℚ) : ℤ :=
  if 0 ≤ x then ⌊x + 1 / 2⌋ else ⌈x - 1 / 2⌉

/-- Conversion of a `double` to a C integer type: truncation toward zero. -/
def double_to_int (x : ℚ) : ℤ :=
  if 0 ≤ x then ⌊x⌋ else ⌈x⌉

/-- Wrap an integer into the range of `int16_t`. -/
def to_int16 (n : ℤ) : ℤ :=
  (n + 2 ^ 15) % 2 ^ 16 - 2 ^ 15

/-! ## Renderer model -/

/-- An `SDL_Rect`. -/
structure SDL_Rect where
  x : ℤ
  y : ℤ
  w : ℤ
  h : ℤ
deriving DecidableEq, Repr

/-- An `SDL_Surface *`, identified by a handle. -/
structure SDL_Surface where
  id : ℕ
deriving DecidableEq, Repr

/-- An `SDL_Texture *`: the texture uploaded from a surface. -/
structure SDL_Texture where
  source : SDL_Surface
deriving DecidableEq, Repr

/-- `SDL_CreateTextureFromSurface(renderer, surface)`. -/
def SDL_CreateTextureFromSurface (surface : SDL_Surface) : SDL_Texture :=
  { source := surface }

/-- The calls made on the renderer that change the frame. -/
inductive RenderCmd where
  | SetRenderDrawColor (r g b a : ℤ)
  | RenderClear
  | filledPolygonRGBA (vx vy : List ℤ) (n : ℕ) (r g b a : ℤ)
  | RenderCopy (texture : SDL_Texture) (dstrect : SDL_Rect)
  | RenderDrawRect (rect : SDL_Rect)
  | RenderPresent
deriving DecidableEq, Repr

/-- An `rgb_color_t` (color.h): three `double` channels. -/
structure rgb_color_t where
  r : ℚ
  g : ℚ
  b : ℚ
deriving DecidableEq, Repr

def WINDOW_WIDTH : ℤ := 1000
def WINDOW_HEIGHT : ℤ := 500

/-- The globals used by the drawing half of the file, the size the window
currently has (what `SDL_GetWindowSize` reports), and the log of render calls. -/
structure SdlState where
  center : vector_t
  max_diff : vector_t
  window_width : ℤ
  window_height : ℤ
  texture_text : List SDL_Texture
  rect_text : List SDL_Rect
  texture_img : List SDL_Texture
  rect_img : List SDL_Rect
  rendered : List RenderCmd
deriving DecidableEq, Repr

/-- The user resizes the window (it is created `SDL_WINDOW_RESIZABLE`). -/
def window_resized (s : SdlState) (w h : ℤ) : SdlState :=
  { s with window_width := w, window_height := h }

/-! ## Coordinate transform -/

/-- `get_window_center`: half of the window's pixel dimensions. -/
def get_window_center (s : SdlState) : vector_t :=
  let dimensions : vector_t := { x := (s.window_width : ℚ), y := (s.window_height : ℚ) }
  vec_multiply (1 / 2) dimensions

/-- `get_scene_scale`: the smaller of the two axis scales. -/
def get_scene_scale (s : SdlState) (window_center : vector_t) : ℚ :=
  let x_scale := window_center.x / s.max_diff.x
  let y_scale := window_center.y / s.max_diff.y
  if x_scale < y_scale then x_scale else y_scale

/-- `get_window_position`: maps a scene coordinate to a window coordinate. -/
def get_window_position (s : SdlState) (scene_pos window_center : vector_t) : vector_t :=
  let scene_center_offset := vec_subtract scene_pos s.center
  let scale := get_scene_scale s window_center
  let pixel_center_offset := vec_multiply scale scene_center_offset
  { x := (c_round (window_center.x + pixel_center_offset.x) : ℚ),
    y := (c_round (window_center.y - pixel_center_offset.y) : ℚ) }

/-- `sdl_init`: `none` when an assertion on the bounds fails. -/
def sdl_init (min max : vector_t) : Option SdlState :=
  if min.x < max.x ∧ min.y < max.y then
    let center := vec_multiply (1 / 2) (vec_add min max)
    some { center := center,
           max_diff := vec_subtract max center,
           window_width := WINDOW_WIDTH,
           window_height := WINDOW_HEIGHT,
           texture_text := [], rect_text := [],
           texture_img := [], rect_img := [],
           rendered := [] }
  else none

/-! ## Drawing -/

/-- `sdl_clear`: fill the frame with white. -/
def sdl_clear (s : SdlState) : SdlState :=
  { s with rendered := s.rendered ++
      [RenderCmd.SetRenderDrawColor 255 255 255 255, RenderCmd.RenderClear] }

/-- `sdl_draw_polygon`: `none` when one of the parameter assertions fails.
The vertex coordinates are stored into `int16_t` arrays, the colour channels
are converted to `Uint8`. -/
def sdl_draw_polygon (s : SdlState) (points : List vector_t) (color : rgb_color_t)
    (texture : SDL_Surface) (has_texture : Bool) (rect : SDL_Rect) : Option SdlState :=
  let n := points.length
  if 3 ≤ n ∧ (0 ≤ color.r ∧ color.r ≤ 1) ∧ (0 ≤ color.g ∧ color.g ≤ 1)
      ∧ (0 ≤ color.b ∧ color.b ≤ 1) then
    let window_center := get_window_center s
    let x_points := points.map fun vertex =>
      to_int16 (double_to_int (get_window_position s vertex window_center).x)
    let y_points := points.map fun vertex =>
      to_int16 (double_to_int (get_window_position s vertex window_center).y)
    let s1 : SdlState :=
      { s with rendered := s.rendered ++
          [RenderCmd.filledPolygonRGBA x_points y_points n
            (double_to_int (color.r * 255)) (double_to_int (color.g * 255))
            (double_to_int (color.b * 255)) 255] }
    if has_texture then
      let img_texture := SDL_CreateTextureFromSurface texture
      some { s1 with
              rect_img := s1.rect_img ++ [rect],
              texture_img := s1.texture_img ++ [img_texture],
              rendered := s1.rendered ++ [RenderCmd.RenderCopy img_texture rect] }
    else
      some s1
  else none

/-- `sdl_draw_text`: upload the text surface and queue it with its rectangle. -/
def sdl_draw_text (s : SdlState) (surface : SDL_Surface) (x y w h : ℚ) : SdlState :=
  let texture := SDL_CreateTextureFromSurface surface
  let rect : SDL_Rect :=
    { x := double_to_int x, y := double_to_int y, w := double_to_int w, h := double_to_int h }
  { s with rect_text := s.rect_text ++ [rect], texture_text := s.texture_text ++ [texture] }

/-- The `boundary` rectangle that `sdl_show` computes and draws. -/
def sdl_show_boundary (s : SdlState) : SDL_Rect :=
  let window_center := get_window_center s
  let max := vec_add s.center s.max_diff
  let min := vec_subtract s.center s.max_diff
  let max_pixel := get_window_position s max window_center
  let min_pixel := get_window_position s min window_center
  { x := double_to_int min_pixel.x,
    y := double_to_int max_pixel.y,
    w := double_to_int (max_pixel.x - min_pixel.x),
    h := double_to_int (min_pixel.y - max_pixel.y) }

/-- `sdl_show`: boundary rectangle, then the text queue, then the image queue
(entry `i` of a texture list with entry `i` of its rectangle list), both queues
replaced by fresh empty lists, then the frame is presented. -/
def sdl_show (s : SdlState) : SdlState :=
  let boundary := sdl_show_boundary s
  { s with
    rendered := s.rendered
      ++ [RenderCmd.SetRenderDrawColor 0 0 0 255, RenderCmd.RenderDrawRect boundary]
      ++ List.zipWith RenderCmd.RenderCopy s.texture_text s.rect_text
      ++ List.zipWith RenderCmd.RenderCopy s.texture_img s.rect_img
      ++ [RenderCmd.RenderPresent],
    texture_text := [], rect_text := [],
    texture_img := [], rect_img := [] }

/-! ## Input events -/

/-- `SDLK_LEFT` of SDL_keycode.h. -/
def SDLK_LEFT : ℤ := 1073741904
/-- `SDLK_UP` of SDL_keycode.h. -/
def SDLK_UP : ℤ := 1073741906
/-- `SDLK_RIGHT` of SDL_keycode.h. -/
def SDLK_RIGHT : ℤ := 1073741903
/-- `SDLK_DOWN` of SDL_keycode.h. -/
def SDLK_DOWN : ℤ := 1073741905
/-- `SDLK_SPACE` of SDL_keycode.h, the character 32. -/
def SDLK_SPACE : ℤ := 32
/-- `SDLK_n` of SDL_keycode.h, the character 110. -/
def SDLK_n : ℤ := 110

/-- The six `char` constants of sdl_wrapper.h that `get_keycode` returns for the
named keys. The header is not part of the source file, so their values are a
parameter of the model. -/
structure KeyConstants where
  LEFT_ARROW : ℤ
  UP_ARROW : ℤ
  RIGHT_ARROW : ℤ
  DOWN_ARROW : ℤ
  SPACE : ℤ
  N : ℤ
deriving DecidableEq, Repr

/-- The cast `(char) key` of a 32-bit key code, `char` being a signed 8-bit type. -/
def to_char (key : ℤ) : ℤ :=
  (key + 2 ^ 7) % 2 ^ 8 - 2 ^ 7

/-- `get_keycode`: converts an SDL key code to a `char`; 0 is `'\0'`. -/
def get_keycode (kc : KeyConstants) (key : ℤ) : ℤ :=
  if key = SDLK_LEFT then kc.LEFT_ARROW
  else if key = SDLK_UP then kc.UP_ARROW
  else if key = SDLK_RIGHT then kc.RIGHT_ARROW
  else if key = SDLK_DOWN then kc.DOWN_ARROW
  else if key = SDLK_SPACE then kc.SPACE
  else if key = SDLK_n then kc.N
  else if key = to_char key then key else 0

/-- The `key_event_type_t` of sdl_wrapper.h. -/
inductive key_event_type_t where
  | KEY_PRESSED
  | KEY_RELEASED
deriving DecidableEq, Repr

/-- An `SDL_Event` as `sdl_is_done` reads it. Key events carry
`key.keysym.sym`, `key.timestamp` and `key.repeat`; wheel events carry `wheel.x`
and `wheel.y`. The mouse events carry the position that `SDL_GetMouseState`
reports while the event is being handled. `OTHER` is any event type the switch
has no case for. -/
inductive SDL_Event where
  | QUIT
  | KEYDOWN (sym : ℤ) (timestamp : ℕ) (key_repeat : Bool)
  | KEYUP (sym : ℤ) (timestamp : ℕ) (key_repeat : Bool)
  | MOUSEBUTTONDOWN (x y : ℤ)
  | MOUSEMOTION (x y : ℤ)
  | MOUSEBUTTONUP (x y : ℤ)
  | MOUSEWHEEL (x y : ℤ)
  | OTHER
deriving DecidableEq, Repr

/-- The five callback slots; `true` stands for a registered (non-NULL) handler. -/
structure Handlers where
  key_handler : Bool
  mouse_click_handler : Bool
  mouse_click_handler_no_release : Bool
  mouse_button_up_handler : Bool
  mouse_scroll_handler : Bool
deriving DecidableEq, Repr

/-- The globals that event dispatch reads and writes. `key_start_timestamp` is a
`uint32_t`. -/
structure InputState where
  key_start_timestamp : ℕ
  pos_click : vector_t
  mouse_is_clicked : Bool
  prev_clicked : Bool
deriving DecidableEq, Repr

/-- The values of the globals at program start. -/
def InputState.initial : InputState :=
  { key_start_timestamp := 0, pos_click := { x := 0, y := 0 },
    mouse_is_clicked := false, prev_clicked := false }

/-- One call of a registered handler, with the arguments it received. -/
inductive HandlerCall where
  | key_handler (key : ℤ) (kind : key_event_type_t) (held_time : ℚ) (scene : ℕ)
  | mouse_click_handler (pos_click new_pos : vector_t) (scene : ℕ)
  | mouse_click_handler_no_release (pos_click new_pos : vector_t) (scene : ℕ)
  | mouse_button_up_handler (pos_click new_pos : vector_t) (scene : ℕ)
  | mouse_scroll_handler (x y : ℤ) (scene : ℕ)
deriving DecidableEq, Repr

def MS_PER_S : ℚ := 1000

/-- The body shared by `case SDL_KEYDOWN:` and `case SDL_KEYUP:`. The
subtraction of the two timestamps is done in `uint32_t`. -/
def key_case (kc : KeyConstants) (hs : Handlers) (scene : ℕ) (st : InputState)
    (kind : key_event_type_t) (sym : ℤ) (event_timestamp : ℕ) (key_repeat : Bool) :
    InputState × List HandlerCall :=
  if hs.key_handler = false then (st, [])
  else
    let key := get_keycode kc sym
    if key = 0 then (st, [])
    else
      let timestamp := event_timestamp % 2 ^ 32
      let st1 : InputState :=
        if key_repeat = false then { st with key_start_timestamp := timestamp } else st
      let held_time : ℚ :=
        (((timestamp + 2 ^ 32 - st1.key_start_timestamp % 2 ^ 32) % 2 ^ 32 : ℕ) : ℚ) / MS_PER_S
      (st1, [HandlerCall.key_handler key kind held_time scene])

/-- The `switch (event->type)` of `sdl_is_done`: `none` is the `return true` of
the quit case, otherwise the updated globals and the handler calls made. -/
def switch_event (kc : KeyConstants) (hs : Handlers) (scene : ℕ) (st : InputState) :
    SDL_Event → Option (InputState × List HandlerCall)
  | SDL_Event.QUIT => none
  | SDL_Event.KEYDOWN sym timestamp key_repeat =>
      some (key_case kc hs scene st key_event_type_t.KEY_PRESSED sym timestamp key_repeat)
  | SDL_Event.KEYUP sym timestamp key_repeat =>
      some (key_case kc hs scene st key_event_type_t.KEY_RELEASED sym timestamp key_repeat)
  | SDL_Event.MOUSEBUTTONDOWN x y =>
      if hs.mouse_click_handler = false then some (st, [])
      else
        let st1 : InputState := { st with mouse_is_clicked := true }
        if st1.prev_clicked = false then
          some ({ st1 with pos_click := { x := (x : ℚ), y := (y : ℚ) }, prev_clicked := true }, [])
        else some (st1, [])
  | SDL_Event.MOUSEMOTION x y =>
      if st.mouse_is_clicked then
        if hs.mouse_click_handler_no_release = false then some (st, [])
        else
          let new_pos : vector_t := { x := (x : ℚ), y := (y : ℚ) }
          some (st, [HandlerCall.mouse_click_handler_no_release st.pos_click new_pos scene])
      else some (st, [])
  | SDL_Event.MOUSEBUTTONUP x y =>
      if hs.mouse_click_handler = false then some (st, [])
      else
        let new_pos : vector_t := { x := (x : ℚ), y := (y : ℚ) }
        let st1 : InputState := { st with prev_clicked := false, mouse_is_clicked := false }
        if hs.mouse_button_up_handler = false then
          some (st1, [HandlerCall.mouse_click_handler st.pos_click new_pos scene])
        else
          some (st1, [HandlerCall.mouse_click_handler st.pos_click new_pos scene,
                      HandlerCall.mouse_button_up_handler st1.pos_click new_pos scene])
  | SDL_Event.MOUSEWHEEL x y =>
      if hs.mouse_scroll_handler = false then some (st, [])
      else some (st, [HandlerCall.mouse_scroll_handler x y scene])
  | SDL_Event.OTHER => some (st, [])

/-- What one call of `sdl_is_done` leaves behind: the value returned, the
globals, the events still pending in SDL's queue, and the handler calls made,
in order. -/
structure PollResult where
  done : Bool
  state : InputState
  pending : List SDL_Event
  calls : List HandlerCall
deriving DecidableEq, Repr

/-- `sdl_is_done`: the `while (SDL_PollEvent(event))` loop over the pending
events, oldest first. -/
def sdl_is_done (kc : KeyConstants) (hs : Handlers) (scene : ℕ) :
    InputState → List SDL_Event → PollResult
  | st, [] => { done := false, state := st, pending := [], calls := [] }
  | st, event :: rest =>
      match switch_event kc hs scene st event with
      | none => { done := true, state := st, pending := rest, calls := [] }
      | some (st1, calls) =>
          let r := sdl_is_done kc hs scene st1 rest
          { r with calls := calls ++ r.calls }

/-- Every callback slot holds a registered handler. -/
def Handlers.all : Handlers :=
  { key_handler := true, mouse_click_handler := true,
    mouse_click_handler_no_release := true, mouse_button_up_handler := true,
    mouse_scroll_handler := true }

/-- One possible choice of the six key constants of sdl_wrapper.h, used to
evaluate the model on concrete events. -/
def KeyConstants.sample : KeyConstants :=
  { LEFT_ARROW := 1, UP_ARROW := 2, RIGHT_ARROW := 3, DOWN_ARROW := 4, SPACE := 5, N := 6 }

/-- The key event of a given kind: `SDL_KEYDOWN` for a press, `SDL_KEYUP` for a
release. -/
def SDL_Event.key (kind : key_event_type_t) (sym : ℤ) (timestamp : ℕ) (key_repeat : Bool) :
    SDL_Event :=
  match kind with
  | key_event_type_t.KEY_PRESSED => SDL_Event.KEYDOWN sym timestamp key_repeat
  | key_event_type_t.KEY_RELEASED => SDL_Event.KEYUP sym timestamp key_repeat

/-- `CLOCKS_PER_SEC` of time.h (the POSIX value). -/
def CLOCKS_PER_SEC : ℚ := 1000000

/-- `time_since_last_tick`: given the global `last_clock` and the value `now`
that `clock()` returns, the value returned and the new `last_clock`. -/
def time_since_last_tick (last_clock now : ℤ) : ℚ × ℤ :=
  let difference : ℚ :=
    if last_clock ≠ 0 then ((now - last_clock : ℤ) : ℚ) / CLOCKS_PER_SEC else 0
  (difference, now)

/-- Successive calls of `time_since_last_tick`, one per clock reading: the
values returned, in order, and the final `last_clock`. -/
def tick_calls : ℤ → List ℤ → List ℚ × ℤ
  | last_clock, [] => ([], last_clock)
  | last_clock, now :: later =>
      let r := time_since_last_tick last_clock now
      let rs := tick_calls r.2 later
      (r.1 :: rs.1, rs.2)

/-! ## Predicates used by the statements -/

/-- A viewport with positive half-extent and a window with positive size. -/
structure Fits (s : SdlState) : Prop where
  diff_x : 0 < s.max_diff.x
  diff_y : 0 < s.max_diff.y
  width : 0 < s.window_width
  height : 0 < s.window_height

/-! ## Lemmas on rounding -/

theorem c_round_mono {a b : ℚ} (hab : a ≤ b) : c_round a ≤ c_round b := by
  unfold c_round
  by_cases ha : 0 ≤ a
  · have hb : 0 ≤ b := le_trans ha hab
    rw [if_pos ha, if_pos hb]
    exact Int.floor_mono (by linarith)
  · rw [if_neg ha]
    by_cases hb : 0 ≤ b
    · rw [if_pos hb]
      have h1 : ⌈a - 1 / 2⌉ ≤ 0 := by
        rw [Int.ceil_le]; push_cast; linarith [not_le.mp ha]
      have h2 : (0 : ℤ) ≤ ⌊b + 1 / 2⌋ := by
        rw [Int.le_floor]; push_cast; linarith
      exact le_trans h1 h2
    · rw [if_neg hb]
      exact Int.ceil_mono (by linarith)

theorem c_round_intCast (n : ℤ) : c_round (n : ℚ) = n := by
  unfold c_round
  by_cases hn : (0 : ℚ) ≤ (n : ℚ)
  · rw [if_pos hn, Int.floor_eq_iff]
    constructor <;> linarith
  · rw [if_neg hn, Int.ceil_eq_iff]
    constructor <;> linarith

theorem c_round_mem_Icc {v : ℚ} {w : ℤ} (h0 : 0 ≤ v) (hw : v ≤ (w : ℚ)) :
    0 ≤ c_round v ∧ c_round v ≤ w := by
  constructor
  · have := c_round_mono h0
    have h00 : c_round (0 : ℚ) = 0 := by simpa using c_round_intCast 0
    rw [h00] at this
    exact this
  · have := c_round_mono hw
    rwa [c_round_intCast] at this


theorem double_to_int_intCast (n : ℤ) : double_to_int (n : ℚ) = n := by
  unfold double_to_int
  split <;> simp

/-! ## Lemmas on the coordinate transform -/

theorem scale_bounds {s : SdlState} (hs : Fits s) :
    0 ≤ get_scene_scale s (get_window_center s)
    ∧ get_scene_scale s (get_window_center s) * s.max_diff.x = (s.window_width : ℚ) / 2
        ∧ get_scene_scale s (get_window_center s) * s.max_diff.y ≤ (s.window_height : ℚ) / 2
      ∨ 0 ≤ get_scene_scale s (get_window_center s)
    ∧ get_scene_scale s (get_window_center s) * s.max_diff.x ≤ (s.window_width : ℚ) / 2
        ∧ get_scene_scale s (get_window_center s) * s.max_diff.y = (s.window_height : ℚ) / 2 := by
  obtain ⟨hdx, hdy, hw, hh⟩ := hs
  have hwq : (0 : ℚ) < (s.window_width : ℚ) := by exact_mod_cast hw
  have hhq : (0 : ℚ) < (s.window_height : ℚ) := by exact_mod_cast hh
  simp only [get_scene_scale, get_window_center, vec_multiply]
  have hxs : 0 < 1 / 2 * (s.window_width : ℚ) / s.max_diff.x := by positivity
  have hys : 0 < 1 / 2 * (s.window_height : ℚ) / s.max_diff.y := by positivity
  have ex : 1 / 2 * (s.window_width : ℚ) / s.max_diff.x * s.max_diff.x
      = (s.window_width : ℚ) / 2 := by field_simp; ring
  have ey : 1 / 2 * (s.window_height : ℚ) / s.max_diff.y * s.max_diff.y
      = (s.window_height : ℚ) / 2 := by field_simp; ring
  split_ifs with hlt
  · left
    refine ⟨hxs.le, ex, ?_⟩
    rw [← ey]
    exact mul_le_mul_of_nonneg_right hlt.le hdy.le
  · right
    refine ⟨hys.le, ?_, ey⟩
    rw [← ex]
    exact mul_le_mul_of_nonneg_right (not_lt.mp hlt) hdx.le

theorem scale_nonneg {s : SdlState} (hs : Fits s) :
    0 ≤ get_scene_scale s (get_window_center s) := by
  rcases scale_bounds hs with h | h <;> exact h.1

theorem scale_mul_x_le {s : SdlState} (hs : Fits s) :
    get_scene_scale s (get_window_center s) * s.max_diff.x ≤ (s.window_width : ℚ) / 2 := by
  rcases scale_bounds hs with h | h
  · exact h.2.1.le
  · exact h.2.1

theorem scale_mul_y_le {s : SdlState} (hs : Fits s) :
    get_scene_scale s (get_window_center s) * s.max_diff.y ≤ (s.window_height : ℚ) / 2 := by
  rcases scale_bounds hs with h | h
  · exact h.2.2
  · exact h.2.2.le

/-- A scene point within the half-extent of the centre lands on a pixel of the
closed window rectangle. -/
theorem window_position_mem {s : SdlState} (hs : Fits s) (p : vector_t)
    (hx : -s.max_diff.x ≤ p.x - s.center.x ∧ p.x - s.center.x ≤ s.max_diff.x)
    (hy : -s.max_diff.y ≤ p.y - s.center.y ∧ p.y - s.center.y ≤ s.max_diff.y) :
    (0 ≤ (get_window_position s p (get_window_center s)).x
      ∧ (get_window_position s p (get_window_center s)).x ≤ (s.window_width : ℚ))
    ∧ (0 ≤ (get_window_position s p (get_window_center s)).y
      ∧ (get_window_position s p (get_window_center s)).y ≤ (s.window_height : ℚ)) := by
  have h0 := scale_nonneg hs
  have h1 := scale_mul_x_le hs
  have h2 := scale_mul_y_le hs
  set k := get_scene_scale s (get_window_center s) with hk
  have ax : k * (p.x - s.center.x) ≤ k * s.max_diff.x := mul_le_mul_of_nonneg_left hx.2 h0
  have bx : k * (-s.max_diff.x) ≤ k * (p.x - s.center.x) := mul_le_mul_of_nonneg_left hx.1 h0
  have ay : k * (p.y - s.center.y) ≤ k * s.max_diff.y := mul_le_mul_of_nonneg_left hy.2 h0
  have bY : k * (-s.max_diff.y) ≤ k * (p.y - s.center.y) := mul_le_mul_of_nonneg_left hy.1 h0
  have cx : (get_window_center s).x = (s.window_width : ℚ) / 2 := by
    simp [get_window_center, vec_multiply]; ring
  have cy : (get_window_center s).y = (s.window_height : ℚ) / 2 := by
    simp [get_window_center, vec_multiply]; ring
  have rx := @c_round_mem_Icc ((get_window_center s).x + k * (p.x - s.center.x))
    s.window_width (by rw [cx]; linarith) (by rw [cx]; linarith)
  have ry := @c_round_mem_Icc ((get_window_center s).y - k * (p.y - s.center.y))
    s.window_height (by rw [cy]; linarith) (by rw [cy]; linarith)
  simp only [get_window_position, vec_multiply, vec_subtract, ← hk]
  exact ⟨⟨by exact_mod_cast rx.1, by exact_mod_cast rx.2⟩,
    ⟨by exact_mod_cast ry.1, by exact_mod_cast ry.2⟩⟩

/-- The boundary rectangle of `sdl_show` has non-negative width and height. -/
theorem boundary_nonneg {s : SdlState} (hs : Fits s) :
    0 ≤ (sdl_show_boundary s).w ∧ 0 ≤ (sdl_show_boundary s).h := by
  have h0 := scale_nonneg hs
  have hdx := hs.diff_x
  have hdy := hs.diff_y
  set k := get_scene_scale s (get_window_center s) with hk
  have px : 0 ≤ k * s.max_diff.x := mul_nonneg h0 hdx.le
  have py : 0 ≤ k * s.max_diff.y := mul_nonneg h0 hdy.le
  simp only [sdl_show_boundary, get_window_position, vec_multiply, vec_subtract, vec_add, ← hk]
  constructor
  · rw [← Int.cast_sub, double_to_int_intCast, sub_nonneg]
    apply c_round_mono
    have e1 : k * (s.center.x - s.max_diff.x - s.center.x) = -(k * s.max_diff.x) := by ring
    have e2 : k * (s.center.x + s.max_diff.x - s.center.x) = k * s.max_diff.x := by ring
    rw [e1, e2]; linarith
  · rw [← Int.cast_sub, double_to_int_intCast, sub_nonneg]
    apply c_round_mono
    have e1 : k * (s.center.y - s.max_diff.y - s.center.y) = -(k * s.max_diff.y) := by ring
    have e2 : k * (s.center.y + s.max_diff.y - s.center.y) = k * s.max_diff.y := by ring
    rw [e1, e2]; linarith

theorem sdl_init_eq {min max : vector_t} (hx : min.x < max.x) (hy : min.y < max.y) :
    sdl_init min max = some
      { center := vec_multiply (1 / 2) (vec_add min max),
        max_diff := vec_subtract max (vec_multiply (1 / 2) (vec_add min max)),
        window_width := WINDOW_WIDTH, window_height := WINDOW_HEIGHT,
        texture_text := [], rect_text := [], texture_img := [], rect_img := [],
        rendered := [] } := by
  unfold sdl_init
  rw [if_pos ⟨hx, hy⟩]

theorem fits_of_init {min max : vector_t} {s0 : SdlState} {w h : ℤ}
    (hi : sdl_init min max = some s0) (hx : min.x < max.x) (hy : min.y < max.y)
    (hw : 0 < w) (hh : 0 < h) :
    Fits (window_resized s0 w h)
    ∧ (window_resized s0 w h).center.x = (min.x + max.x) / 2
    ∧ (window_resized s0 w h).center.y = (min.y + max.y) / 2
    ∧ (window_resized s0 w h).max_diff.x = (max.x - min.x) / 2
    ∧ (window_resized s0 w h).max_diff.y = (max.y - min.y) / 2
    ∧ (window_resized s0 w h).window_width = w
    ∧ (window_resized s0 w h).window_height = h := by
  rw [sdl_init_eq hx hy] at hi
  cases hi
  refine ⟨⟨?_, ?_, hw, hh⟩, ?_, ?_, ?_, ?_, rfl, rfl⟩ <;>
    simp only [window_resized, vec_multiply, vec_add, vec_subtract] <;> linarith

theorem c_round_eq_of_nonneg {x : ℚ} {n : ℤ} (h0 : 0 ≤ x) (h1 : (n : ℚ) ≤ x + 1 / 2)
    (h2 : x + 1 / 2 < (n : ℚ) + 1) : c_round x = n := by
  unfold c_round
  rw [if_pos h0, Int.floor_eq_iff]
  exact ⟨h1, h2⟩

/-! ## The claims on the coordinate transform -/

/-- C9: after `sdl_init min max` with `min.x < max.x` and `min.y < max.y`, for
every window size `w > 0`, `h > 0` and every scene point `p` of the closed
bounds, `get_window_position p (get_window_center)` is a pixel with
`0 ≤ x ≤ w` and `0 ≤ y ≤ h`; and the boundary rectangle that `sdl_show` draws
has non-negative width and height. -/
theorem full_bound_fits_on_screen (min max p : vector_t) (w h : ℤ)
    (hx : min.x < max.x) (hy : min.y < max.y) (hw : 0 < w) (hh : 0 < h)
    (hpx : min.x ≤ p.x ∧ p.x ≤ max.x) (hpy : min.y ≤ p.y ∧ p.y ≤ max.y) :
    ∃ s0 : SdlState, sdl_init min max = some s0 ∧
      (0 ≤ (get_window_position (window_resized s0 w h) p
              (get_window_center (window_resized s0 w h))).x
        ∧ (get_window_position (window_resized s0 w h) p
              (get_window_center (window_resized s0 w h))).x ≤ (w : ℚ))
      ∧ (0 ≤ (get_window_position (window_resized s0 w h) p
              (get_window_center (window_resized s0 w h))).y
        ∧ (get_window_position (window_resized s0 w h) p
              (get_window_center (window_resized s0 w h))).y ≤ (h : ℚ))
      ∧ RenderCmd.RenderDrawRect (sdl_show_boundary (window_resized s0 w h))
          ∈ (sdl_show (window_resized s0 w h)).rendered
      ∧ 0 ≤ (sdl_show_boundary (window_resized s0 w h)).w
      ∧ 0 ≤ (sdl_show_boundary (window_resized s0 w h)).h := by
  refine ⟨_, sdl_init_eq hx hy, ?_⟩
  obtain ⟨hf, cx, cy, dx, dy, ew, eh⟩ := fits_of_init (sdl_init_eq hx hy) hx hy hw hh
  have hm := window_position_mem hf p
    (by rw [cx, dx]; constructor <;> linarith [hpx.1, hpx.2])
    (by rw [cy, dy]; constructor <;> linarith [hpy.1, hpy.2])
  rw [ew, eh] at hm
  refine ⟨hm.1, hm.2, ?_, boundary_nonneg hf⟩
  simp [sdl_show]

theorem full_bound_fits_on_screen_witness :
    ∃ s0 : SdlState, sdl_init ⟨0, 0⟩ ⟨1000, 500⟩ = some s0 ∧
      (0 ≤ (get_window_position (window_resized s0 800 600) ⟨1000, 0⟩
              (get_window_center (window_resized s0 800 600))).x
        ∧ (get_window_position (window_resized s0 800 600) ⟨1000, 0⟩
              (get_window_center (window_resized s0 800 600))).x ≤ ((800 : ℤ) : ℚ))
      ∧ (0 ≤ (get_window_position (window_resized s0 800 600) ⟨1000, 0⟩
              (get_window_center (window_resized s0 800 600))).y
        ∧ (get_window_position (window_resized s0 800 600) ⟨1000, 0⟩
              (get_window_center (window_resized s0 800 600))).y ≤ ((600 : ℤ) : ℚ))
      ∧ RenderCmd.RenderDrawRect (sdl_show_boundary (window_resized s0 800 600))
          ∈ (sdl_show (window_resized s0 800 600)).rendered
      ∧ 0 ≤ (sdl_show_boundary (window_resized s0 800 600)).w
      ∧ 0 ≤ (sdl_show_boundary (window_resized s0 800 600)).h :=
  full_bound_fits_on_screen ⟨0, 0⟩ ⟨1000, 500⟩ ⟨1000, 0⟩ 800 600
    (by norm_num) (by norm_num) (by norm_num) (by norm_num)
    (by norm_num) (by norm_num)

/-- C1, as the code has it: after `sdl_init min max` with `min.x < max.x` and
`min.y < max.y`, for every window size `w > 0`, `h > 0` and every scene point
`p` strictly inside the bounds, the pixel returned by `get_window_position`
lies in the closed window rectangle, `0 ≤ x ≤ w` and `0 ≤ y ≤ h`. -/
theorem strictly_inside_maps_into_closed_window (min max p : vector_t) (w h : ℤ)
    (hx : min.x < max.x) (hy : min.y < max.y) (hw : 0 < w) (hh : 0 < h)
    (hpx : min.x < p.x ∧ p.x < max.x) (hpy : min.y < p.y ∧ p.y < max.y) :
    ∃ s0 : SdlState, sdl_init min max = some s0 ∧
      (0 ≤ (get_window_position (window_resized s0 w h) p
              (get_window_center (window_resized s0 w h))).x
        ∧ (get_window_position (window_resized s0 w h) p
              (get_window_center (window_resized s0 w h))).x ≤ (w : ℚ))
      ∧ (0 ≤ (get_window_position (window_resized s0 w h) p
              (get_window_center (window_resized s0 w h))).y
        ∧ (get_window_position (window_resized s0 w h) p
              (get_window_center (window_resized s0 w h))).y ≤ (h : ℚ)) := by
  refine ⟨_, sdl_init_eq hx hy, ?_⟩
  obtain ⟨hf, cx, cy, dx, dy, ew, eh⟩ := fits_of_init (sdl_init_eq hx hy) hx hy hw hh
  have hm := window_position_mem hf p
    (by rw [cx, dx]; constructor <;> linarith [hpx.1, hpx.2])
    (by rw [cy, dy]; constructor <;> linarith [hpy.1, hpy.2])
  rw [ew, eh] at hm
  exact hm

theorem strictly_inside_maps_into_closed_window_witness :
    ∃ s0 : SdlState, sdl_init ⟨0, 0⟩ ⟨1000, 500⟩ = some s0 ∧
      (0 ≤ (get_window_position (window_resized s0 1000 500) ⟨1 / 10, 250⟩
              (get_window_center (window_resized s0 1000 500))).x
        ∧ (get_window_position (window_resized s0 1000 500) ⟨1 / 10, 250⟩
              (get_window_center (window_resized s0 1000 500))).x ≤ ((1000 : ℤ) : ℚ))
      ∧ (0 ≤ (get_window_position (window_resized s0 1000 500) ⟨1 / 10, 250⟩
              (get_window_center (window_resized s0 1000 500))).y
        ∧ (get_window_position (window_resized s0 1000 500) ⟨1 / 10, 250⟩
              (get_window_center (window_resized s0 1000 500))).y ≤ ((500 : ℤ) : ℚ)) :=
  strictly_inside_maps_into_closed_window ⟨0, 0⟩ ⟨1000, 500⟩ ⟨1 / 10, 250⟩ 1000 500
    (by norm_num) (by norm_num) (by norm_num) (by norm_num)
    (by norm_num) (by norm_num)

/-- C1 as stated fails: with bounds (0,0)-(1000,500) and a 1000 x 500 window the
scene point (1/10, 250) is strictly inside the bounds, and its pixel is
(0, 250), whose x is not greater than 0. -/
theorem strictly_inside_counterexample :
    ∃ s0 : SdlState, sdl_init ⟨0, 0⟩ ⟨1000, 500⟩ = some s0 ∧
      ((0 : ℚ) < 1 / 10 ∧ (1 / 10 : ℚ) < 1000 ∧ (0 : ℚ) < 250 ∧ (250 : ℚ) < 500) ∧
      get_window_position (window_resized s0 1000 500) ⟨1 / 10, 250⟩
          (get_window_center (window_resized s0 1000 500)) = ⟨0, 250⟩ ∧
      ¬ (0 < (get_window_position (window_resized s0 1000 500) ⟨1 / 10, 250⟩
          (get_window_center (window_resized s0 1000 500))).x) := by
  refine ⟨_, sdl_init_eq (by norm_num) (by norm_num), by norm_num, ?_⟩
  have e : get_window_position
      (window_resized
        { center := vec_multiply (1 / 2) (vec_add ⟨0, 0⟩ ⟨1000, 500⟩),
          max_diff := vec_subtract ⟨1000, 500⟩ (vec_multiply (1 / 2) (vec_add ⟨0, 0⟩ ⟨1000, 500⟩)),
          window_width := WINDOW_WIDTH, window_height := WINDOW_HEIGHT,
          texture_text := [], rect_text := [], texture_img := [], rect_img := [],
          rendered := [] } 1000 500) ⟨1 / 10, 250⟩
      (get_window_center (window_resized
        { center := vec_multiply (1 / 2) (vec_add ⟨0, 0⟩ ⟨1000, 500⟩),
          max_diff := vec_subtract ⟨1000, 500⟩ (vec_multiply (1 / 2) (vec_add ⟨0, 0⟩ ⟨1000, 500⟩)),
          window_width := WINDOW_WIDTH, window_height := WINDOW_HEIGHT,
          texture_text := [], rect_text := [], texture_img := [], rect_img := [],
          rendered := [] } 1000 500)) = ⟨0, 250⟩ := by
    have r1 : c_round (1 / 10 : ℚ) = 0 :=
      c_round_eq_of_nonneg (by norm_num) (by norm_num) (by norm_num)
    have r2 : c_round (250 : ℚ) = 250 :=
      c_round_eq_of_nonneg (by norm_num) (by norm_num) (by norm_num)
    simp only [get_window_position, get_window_center, get_scene_scale, window_resized,
      vec_multiply, vec_add, vec_subtract]
    norm_num [r1, r2]
  rw [e]
  exact ⟨rfl, by norm_num⟩

/-! ## Lemmas on the event loop -/

theorem switch_event_eq_none_iff (kc : KeyConstants) (hs : Handlers) (scene : ℕ)
    (st : InputState) (event : SDL_Event) :
    switch_event kc hs scene st event = none ↔ event = SDL_Event.QUIT := by
  cases event <;> simp [switch_event] <;> split_ifs <;> simp

theorem sdl_is_done_nil (kc : KeyConstants) (hs : Handlers) (scene : ℕ) (st : InputState) :
    sdl_is_done kc hs scene st [] = { done := false, state := st, pending := [], calls := [] } :=
  rfl

theorem sdl_is_done_quit (kc : KeyConstants) (hs : Handlers) (scene : ℕ) (st : InputState)
    (rest : List SDL_Event) :
    sdl_is_done kc hs scene st (SDL_Event.QUIT :: rest)
      = { done := true, state := st, pending := rest, calls := [] } :=
  rfl

theorem sdl_is_done_cons (kc : KeyConstants) (hs : Handlers) (scene : ℕ) (st st1 : InputState)
    (event : SDL_Event) (rest : List SDL_Event) (calls : List HandlerCall)
    (h : switch_event kc hs scene st event = some (st1, calls)) :
    sdl_is_done kc hs scene st (event :: rest)
      = { sdl_is_done kc hs scene st1 rest with
          calls := calls ++ (sdl_is_done kc hs scene st1 rest).calls } := by
  simp [sdl_is_done, h]

/-- A queue without a quit event is drained and the call returns false. -/
theorem sdl_is_done_no_quit (kc : KeyConstants) (hs : Handlers) (scene : ℕ)
    (queue : List SDL_Event) (hq : SDL_Event.QUIT ∉ queue) (st : InputState) :
    (sdl_is_done kc hs scene st queue).done = false
      ∧ (sdl_is_done kc hs scene st queue).pending = [] := by
  induction queue generalizing st with
  | nil => simp [sdl_is_done_nil]
  | cons event rest ih =>
    have hne : event ≠ SDL_Event.QUIT := fun h => hq (by simp [h])
    have hrest : SDL_Event.QUIT ∉ rest := fun h => hq (by simp [h])
    cases hsw : switch_event kc hs scene st event with
    | none => exact absurd ((switch_event_eq_none_iff kc hs scene st event).mp hsw) hne
    | some pr =>
      obtain ⟨st1, calls⟩ := pr
      rw [sdl_is_done_cons kc hs scene st st1 event _ calls hsw]
      exact ih hrest st1

/-- A queue with a quit event makes the call return true. -/
theorem sdl_is_done_of_quit (kc : KeyConstants) (hs : Handlers) (scene : ℕ)
    (queue : List SDL_Event) (hq : SDL_Event.QUIT ∈ queue) (st : InputState) :
    (sdl_is_done kc hs scene st queue).done = true := by
  induction queue generalizing st with
  | nil => simp at hq
  | cons event rest ih =>
    cases hsw : switch_event kc hs scene st event with
    | none =>
      rw [(switch_event_eq_none_iff kc hs scene st event).mp hsw, sdl_is_done_quit]
    | some pr =>
      obtain ⟨st1, calls⟩ := pr
      have hne : event ≠ SDL_Event.QUIT := by
        intro h
        rw [h] at hsw
        simp [switch_event] at hsw
      have hrest : SDL_Event.QUIT ∈ rest := by
        rcases List.mem_cons.mp hq with h | h
        · exact absurd h.symm hne
        · exact h
      rw [sdl_is_done_cons kc hs scene st st1 event _ calls hsw]
      exact ih hrest st1

/-! ## The claims on the event loop -/

/-- C2: for every queue of pending events, every handler configuration and
every state, `sdl_is_done` returns true exactly when the queue contains a quit
event; when it contains none, the call returns false with the whole queue
consumed. -/
theorem sdl_is_done_true_iff_quit_pending (kc : KeyConstants) (hs : Handlers) (scene : ℕ)
    (st : InputState) (queue : List SDL_Event) :
    ((sdl_is_done kc hs scene st queue).done = true ↔ SDL_Event.QUIT ∈ queue)
    ∧ ((sdl_is_done kc hs scene st queue).done = false ↔
        SDL_Event.QUIT ∉ queue ∧ (sdl_is_done kc hs scene st queue).pending = []) := by
  by_cases hq : SDL_Event.QUIT ∈ queue
  · have h := sdl_is_done_of_quit kc hs scene queue hq st
    simp [h, hq]
  · have h := sdl_is_done_no_quit kc hs scene queue hq st
    simp [h.1, h.2, hq]

/-- C3 as stated fails: with a scroll handler registered and the queue
[quit, wheel (1, 2)], the call returns with no handler call made and the wheel
event still pending, whereas the queue without the quit event gives one call of
the scroll handler. -/
theorem drains_past_quit_counterexample :
    (sdl_is_done KeyConstants.sample Handlers.all 0 InputState.initial
        [SDL_Event.QUIT, SDL_Event.MOUSEWHEEL 1 2]).calls = []
    ∧ (sdl_is_done KeyConstants.sample Handlers.all 0 InputState.initial
        [SDL_Event.QUIT, SDL_Event.MOUSEWHEEL 1 2]).pending = [SDL_Event.MOUSEWHEEL 1 2]
    ∧ (sdl_is_done KeyConstants.sample Handlers.all 0 InputState.initial
        [SDL_Event.MOUSEWHEEL 1 2]).calls = [HandlerCall.mouse_scroll_handler 1 2 0]
    ∧ (sdl_is_done KeyConstants.sample Handlers.all 0 InputState.initial
        [SDL_Event.QUIT, SDL_Event.MOUSEWHEEL 1 2]).calls
      ≠ (sdl_is_done KeyConstants.sample Handlers.all 0 InputState.initial
        ([SDL_Event.QUIT, SDL_Event.MOUSEWHEEL 1 2].filter
          fun e => decide (e ≠ SDL_Event.QUIT))).calls := by
  simp [sdl_is_done, switch_event, Handlers.all]

/-- C3, as the code has it: one call of `sdl_is_done` dispatches, in order, the
pending events that precede the first quit event and stops at that event: the
handler calls and the final state are those of the queue cut before its first
quit event (which is drained completely), and the events after the first quit
event are left pending, not dispatched. -/
theorem sdl_is_done_stops_at_first_quit (kc : KeyConstants) (hs : Handlers) (scene : ℕ)
    (st : InputState) (queue : List SDL_Event) :
    (sdl_is_done kc hs scene st queue).calls
        = (sdl_is_done kc hs scene st
            (queue.takeWhile fun e => decide (e ≠ SDL_Event.QUIT))).calls
    ∧ (sdl_is_done kc hs scene st queue).state
        = (sdl_is_done kc hs scene st
            (queue.takeWhile fun e => decide (e ≠ SDL_Event.QUIT))).state
    ∧ (sdl_is_done kc hs scene st
            (queue.takeWhile fun e => decide (e ≠ SDL_Event.QUIT))).pending = []
    ∧ (sdl_is_done kc hs scene st queue).pending
        = (queue.dropWhile fun e => decide (e ≠ SDL_Event.QUIT)).tail := by
  induction queue generalizing st with
  | nil => simp [sdl_is_done_nil]
  | cons event rest ih =>
    cases hsw : switch_event kc hs scene st event with
    | none =>
      have he := (switch_event_eq_none_iff kc hs scene st event).mp hsw
      subst he
      simp [sdl_is_done_quit, sdl_is_done_nil]
    | some pr =>
      obtain ⟨st1, calls⟩ := pr
      have hne : event ≠ SDL_Event.QUIT := by
        intro h
        rw [h] at hsw
        simp [switch_event] at hsw
      have ht : (event :: rest).takeWhile (fun e => decide (e ≠ SDL_Event.QUIT))
          = event :: rest.takeWhile (fun e => decide (e ≠ SDL_Event.QUIT)) := by
        simp [List.takeWhile_cons, hne]
      have hd : (event :: rest).dropWhile (fun e => decide (e ≠ SDL_Event.QUIT))
          = rest.dropWhile (fun e => decide (e ≠ SDL_Event.QUIT)) := by
        simp [List.dropWhile_cons, hne]
      rw [ht, hd, sdl_is_done_cons kc hs scene st st1 event _ calls hsw,
        sdl_is_done_cons kc hs scene st st1 event _ calls hsw]
      obtain ⟨h1, h2, h3, h4⟩ := ih st1
      exact ⟨by simp [h1], h2, h3, h4⟩

theorem switch_event_click_gate (kc : KeyConstants) (hs : Handlers) (scene : ℕ)
    (st st1 : InputState) (event : SDL_Event) (calls : List HandlerCall)
    (hclick : hs.mouse_click_handler = false) (hst : st.mouse_is_clicked = false)
    (h : switch_event kc hs scene st event = some (st1, calls)) :
    st1.mouse_is_clicked = false
    ∧ ∀ c ∈ calls, (∀ a b sc, c ≠ HandlerCall.mouse_click_handler_no_release a b sc)
        ∧ (∀ a b sc, c ≠ HandlerCall.mouse_button_up_handler a b sc) := by
  cases event <;> simp only [switch_event, key_case, hclick, hst] at h <;>
    (try split_ifs at h) <;> simp at h <;>
    (first
      | contradiction
      | (obtain ⟨h1, h2⟩ := h; subst h1; subst h2; simp [hst]))

/-- C10: when no click handler is registered and `mouse_is_clicked` is false,
then for every queue of events, every state of the other slots included, the
call of `sdl_is_done` leaves `mouse_is_clicked` false and calls neither the
drag (no-release) handler nor the button-up handler. -/
theorem drag_and_button_up_gated_by_click (kc : KeyConstants) (hs : Handlers) (scene : ℕ)
    (st : InputState) (queue : List SDL_Event)
    (hclick : hs.mouse_click_handler = false) (hst : st.mouse_is_clicked = false) :
    (sdl_is_done kc hs scene st queue).state.mouse_is_clicked = false
    ∧ ∀ c ∈ (sdl_is_done kc hs scene st queue).calls,
        (∀ a b sc, c ≠ HandlerCall.mouse_click_handler_no_release a b sc)
        ∧ (∀ a b sc, c ≠ HandlerCall.mouse_button_up_handler a b sc) := by
  induction queue generalizing st with
  | nil => simp [sdl_is_done_nil, hst]
  | cons event rest ih =>
    cases hsw : switch_event kc hs scene st event with
    | none =>
      have he := (switch_event_eq_none_iff kc hs scene st event).mp hsw
      subst he
      simp [sdl_is_done_quit, hst]
    | some pr =>
      obtain ⟨st1, calls⟩ := pr
      obtain ⟨g1, g2⟩ := switch_event_click_gate kc hs scene st st1 event calls hclick hst hsw
      obtain ⟨i1, i2⟩ := ih st1 g1
      rw [sdl_is_done_cons kc hs scene st st1 event _ calls hsw]
      refine ⟨i1, ?_⟩
      intro c hc
      rcases List.mem_append.mp hc with h | h
      · exact g2 c h
      · exact i2 c h

theorem drag_and_button_up_gated_by_click_witness :
    (sdl_is_done KeyConstants.sample { Handlers.all with mouse_click_handler := false } 0
        InputState.initial
        [SDL_Event.MOUSEBUTTONDOWN 10 10, SDL_Event.MOUSEMOTION 20 15,
          SDL_Event.MOUSEBUTTONUP 20 15]).state.mouse_is_clicked = false
    ∧ ∀ c ∈ (sdl_is_done KeyConstants.sample { Handlers.all with mouse_click_handler := false } 0
        InputState.initial
        [SDL_Event.MOUSEBUTTONDOWN 10 10, SDL_Event.MOUSEMOTION 20 15,
          SDL_Event.MOUSEBUTTONUP 20 15]).calls,
        (∀ a b sc, c ≠ HandlerCall.mouse_click_handler_no_release a b sc)
        ∧ (∀ a b sc, c ≠ HandlerCall.mouse_button_up_handler a b sc) :=
  drag_and_button_up_gated_by_click KeyConstants.sample
    { Handlers.all with mouse_click_handler := false } 0 InputState.initial
    [SDL_Event.MOUSEBUTTONDOWN 10 10, SDL_Event.MOUSEMOTION 20 15,
      SDL_Event.MOUSEBUTTONUP 20 15] rfl rfl

/-- C4: with click, drag (no-release) and button-up handlers registered and no
press recorded (`prev_clicked` false, whatever `mouse_is_clicked` holds), the events [button down at p, motion at q, button up at q]
make exactly the calls drag(p, q, scene), click(p, q, scene),
button_up(p, q, scene), in that order, and leave the click state cleared; a
following button down at p2 then records p2 as the press position, and a motion
at q2 after it calls drag(p2, q2, scene). -/
theorem press_drag_release (kc : KeyConstants) (hs : Handlers) (scene : ℕ) (st : InputState)
    (px py qx qy : ℤ)
    (hclick : hs.mouse_click_handler = true)
    (hdrag : hs.mouse_click_handler_no_release = true)
    (hup : hs.mouse_button_up_handler = true)
    (hp : st.prev_clicked = false) :
    (sdl_is_done kc hs scene st
        [SDL_Event.MOUSEBUTTONDOWN px py, SDL_Event.MOUSEMOTION qx qy,
          SDL_Event.MOUSEBUTTONUP qx qy]).calls
      = [HandlerCall.mouse_click_handler_no_release ⟨px, py⟩ ⟨qx, qy⟩ scene,
         HandlerCall.mouse_click_handler ⟨px, py⟩ ⟨qx, qy⟩ scene,
         HandlerCall.mouse_button_up_handler ⟨px, py⟩ ⟨qx, qy⟩ scene]
    ∧ (sdl_is_done kc hs scene st
        [SDL_Event.MOUSEBUTTONDOWN px py, SDL_Event.MOUSEMOTION qx qy,
          SDL_Event.MOUSEBUTTONUP qx qy]).done = false
    ∧ (sdl_is_done kc hs scene st
        [SDL_Event.MOUSEBUTTONDOWN px py, SDL_Event.MOUSEMOTION qx qy,
          SDL_Event.MOUSEBUTTONUP qx qy]).state.mouse_is_clicked = false
    ∧ (sdl_is_done kc hs scene st
        [SDL_Event.MOUSEBUTTONDOWN px py, SDL_Event.MOUSEMOTION qx qy,
          SDL_Event.MOUSEBUTTONUP qx qy]).state.prev_clicked = false
    ∧ ∀ px2 py2 qx2 qy2 : ℤ,
        (sdl_is_done kc hs scene
            (sdl_is_done kc hs scene st
              [SDL_Event.MOUSEBUTTONDOWN px py, SDL_Event.MOUSEMOTION qx qy,
                SDL_Event.MOUSEBUTTONUP qx qy]).state
            [SDL_Event.MOUSEBUTTONDOWN px2 py2]).state.pos_click = ⟨px2, py2⟩
        ∧ (sdl_is_done kc hs scene
            (sdl_is_done kc hs scene st
              [SDL_Event.MOUSEBUTTONDOWN px py, SDL_Event.MOUSEMOTION qx qy,
                SDL_Event.MOUSEBUTTONUP qx qy]).state
            [SDL_Event.MOUSEBUTTONDOWN px2 py2, SDL_Event.MOUSEMOTION qx2 qy2]).calls
          = [HandlerCall.mouse_click_handler_no_release ⟨px2, py2⟩ ⟨qx2, qy2⟩ scene] := by
  simp [sdl_is_done, switch_event, hclick, hdrag, hup, hp]

theorem press_drag_release_witness :
    (sdl_is_done KeyConstants.sample Handlers.all 0 InputState.initial
        [SDL_Event.MOUSEBUTTONDOWN 10 10, SDL_Event.MOUSEMOTION 20 15,
          SDL_Event.MOUSEBUTTONUP 20 15]).calls
      = [HandlerCall.mouse_click_handler_no_release ⟨((10 : ℤ) : ℚ), ((10 : ℤ) : ℚ)⟩
            ⟨((20 : ℤ) : ℚ), ((15 : ℤ) : ℚ)⟩ 0,
         HandlerCall.mouse_click_handler ⟨((10 : ℤ) : ℚ), ((10 : ℤ) : ℚ)⟩
            ⟨((20 : ℤ) : ℚ), ((15 : ℤ) : ℚ)⟩ 0,
         HandlerCall.mouse_button_up_handler ⟨((10 : ℤ) : ℚ), ((10 : ℤ) : ℚ)⟩
            ⟨((20 : ℤ) : ℚ), ((15 : ℤ) : ℚ)⟩ 0] :=
  (press_drag_release KeyConstants.sample Handlers.all 0 InputState.initial 10 10 20 15
    rfl rfl rfl rfl).1

/-! ## Key codes -/

theorem to_char_eq_self_iff (key : ℤ) : key = to_char key ↔ -128 ≤ key ∧ key ≤ 127 := by
  unfold to_char
  norm_num
  omega

/-- The key codes `get_keycode` maps to a non-zero `char`, the six constants of
the header being non-zero. -/
theorem get_keycode_ne_zero_iff (kc : KeyConstants) (key : ℤ)
    (hk : kc.LEFT_ARROW ≠ 0 ∧ kc.UP_ARROW ≠ 0 ∧ kc.RIGHT_ARROW ≠ 0 ∧ kc.DOWN_ARROW ≠ 0
      ∧ kc.SPACE ≠ 0 ∧ kc.N ≠ 0) :
    get_keycode kc key ≠ 0 ↔
      (key = SDLK_LEFT ∨ key = SDLK_UP ∨ key = SDLK_RIGHT ∨ key = SDLK_DOWN
        ∨ key = SDLK_SPACE ∨ key = SDLK_n ∨ (-128 ≤ key ∧ key ≤ 127 ∧ key ≠ 0)) := by
  obtain ⟨h1, h2, h3, h4, h5, h6⟩ := hk
  unfold get_keycode
  split_ifs with c1 c2 c3 c4 c5 c6 c7
  · simp [h1, c1]
  · simp [h2, c2]
  · simp [h3, c3]
  · simp [h4, c4]
  · simp [h5, c5]
  · simp [h6, c6]
  · have := (to_char_eq_self_iff key).mp c7
    simp [c1, c2, c3, c4, c5, c6, this.1, this.2]
  · have hn : ¬ (-128 ≤ key ∧ key ≤ 127) := fun h => c7 ((to_char_eq_self_iff key).mpr h)
    simp only [c1, c2, c3, c4, c5, c6, false_or, ne_eq, not_true_eq_false, false_iff]
    intro h
    exact hn ⟨h.1, h.2.1⟩

/-- C6 as stated fails: the key code 8 (backspace) is no printable character,
no arrow key, not space and not n, yet `get_keycode` returns 8 for it and the
registered key handler is called with key 8. -/
theorem control_character_counterexample :
    get_keycode KeyConstants.sample 8 = 8
    ∧ (sdl_is_done KeyConstants.sample Handlers.all 0 InputState.initial
        [SDL_Event.KEYDOWN 8 0 false]).calls
      = [HandlerCall.key_handler 8 key_event_type_t.KEY_PRESSED 0 0]
    ∧ ¬ ((32 ≤ (8 : ℤ) ∧ (8 : ℤ) ≤ 126) ∨ 8 = SDLK_LEFT ∨ 8 = SDLK_UP ∨ 8 = SDLK_RIGHT
          ∨ 8 = SDLK_DOWN ∨ 8 = SDLK_SPACE ∨ 8 = SDLK_n) := by
  have hg : get_keycode KeyConstants.sample 8 = 8 := by
    simp [get_keycode, to_char, SDLK_LEFT, SDLK_UP, SDLK_RIGHT, SDLK_DOWN, SDLK_SPACE, SDLK_n]
  refine ⟨hg, ?_, ?_⟩
  · simp [sdl_is_done, switch_event, key_case, hg, Handlers.all, InputState.initial]
  · simp [SDLK_LEFT, SDLK_UP, SDLK_RIGHT, SDLK_DOWN, SDLK_SPACE, SDLK_n]

theorem key_case_non_repeat (kc : KeyConstants) (hs : Handlers) (scene : ℕ) (st : InputState)
    (kind : key_event_type_t) (sym : ℤ) (t : ℕ)
    (hh : hs.key_handler = true) (hk : get_keycode kc sym ≠ 0) :
    key_case kc hs scene st kind sym t false
      = ({ st with key_start_timestamp := t % 2 ^ 32 },
          [HandlerCall.key_handler (get_keycode kc sym) kind 0 scene]) := by
  simp [key_case, hh, hk]

theorem key_case_repeat (kc : KeyConstants) (hs : Handlers) (scene : ℕ) (st : InputState)
    (kind : key_event_type_t) (sym : ℤ) (t : ℕ)
    (hh : hs.key_handler = true) (hk : get_keycode kc sym ≠ 0) :
    key_case kc hs scene st kind sym t true
      = (st, [HandlerCall.key_handler (get_keycode kc sym) kind
          ((((t % 2 ^ 32 + 2 ^ 32 - st.key_start_timestamp % 2 ^ 32) % 2 ^ 32 : ℕ) : ℚ)
            / MS_PER_S) scene]) := by
  simp [key_case, hh, hk]

theorem key_case_unhandled (kc : KeyConstants) (hs : Handlers) (scene : ℕ) (st : InputState)
    (kind : key_event_type_t) (sym : ℤ) (t : ℕ) (key_repeat : Bool)
    (h : ¬ (hs.key_handler = true ∧ get_keycode kc sym ≠ 0)) :
    key_case kc hs scene st kind sym t key_repeat = (st, []) := by
  unfold key_case
  by_cases hh : hs.key_handler = false
  · simp [hh]
  · have hk : get_keycode kc sym = 0 := by
      by_contra hne
      exact h ⟨by simpa using hh, hne⟩
    simp [hk]

theorem switch_event_key (kc : KeyConstants) (hs : Handlers) (scene : ℕ) (st : InputState)
    (kind : key_event_type_t) (sym : ℤ) (t : ℕ) (key_repeat : Bool) :
    switch_event kc hs scene st (SDL_Event.key kind sym t key_repeat)
      = some (key_case kc hs scene st kind sym t key_repeat) := by
  cases kind <;> rfl

theorem sdl_is_done_key (kc : KeyConstants) (hs : Handlers) (scene : ℕ) (st : InputState)
    (kind : key_event_type_t) (sym : ℤ) (t : ℕ) (key_repeat : Bool) (rest : List SDL_Event) :
    sdl_is_done kc hs scene st (SDL_Event.key kind sym t key_repeat :: rest)
      = { sdl_is_done kc hs scene (key_case kc hs scene st kind sym t key_repeat).1 rest with
          calls := (key_case kc hs scene st kind sym t key_repeat).2
            ++ (sdl_is_done kc hs scene
                (key_case kc hs scene st kind sym t key_repeat).1 rest).calls } :=
  sdl_is_done_cons kc hs scene st _ _ rest _ (switch_event_key kc hs scene st kind sym t key_repeat)

/-- C6, as the code has it: the six constants of the header being non-zero, a
key-down or key-up event with key code `sym` makes exactly one call of the key
handler, with `get_keycode sym`, when a key handler is registered and `sym` is
one of the four arrow keys, space, n, or a non-zero code in the range of `char`
(-128..127, so every 7-bit code 1..127, control characters included); for any
other code `get_keycode` is 0 and, as when no key handler is registered, no
handler is called. -/
theorem key_handler_called_iff_recognized (kc : KeyConstants) (hs : Handlers) (scene : ℕ)
    (st : InputState) (kind : key_event_type_t) (sym : ℤ) (timestamp : ℕ) (key_repeat : Bool)
    (hk : kc.LEFT_ARROW ≠ 0 ∧ kc.UP_ARROW ≠ 0 ∧ kc.RIGHT_ARROW ≠ 0 ∧ kc.DOWN_ARROW ≠ 0
      ∧ kc.SPACE ≠ 0 ∧ kc.N ≠ 0) :
    (get_keycode kc sym = 0 ↔ ¬ (sym = SDLK_LEFT ∨ sym = SDLK_UP ∨ sym = SDLK_RIGHT ∨ sym = SDLK_DOWN
        ∨ sym = SDLK_SPACE ∨ sym = SDLK_n ∨ (-128 ≤ sym ∧ sym ≤ 127 ∧ sym ≠ 0)))
    ∧ ((hs.key_handler = true ∧ (sym = SDLK_LEFT ∨ sym = SDLK_UP ∨ sym = SDLK_RIGHT ∨ sym = SDLK_DOWN
        ∨ sym = SDLK_SPACE ∨ sym = SDLK_n ∨ (-128 ≤ sym ∧ sym ≤ 127 ∧ sym ≠ 0))) →
        ∃ held_time : ℚ,
          (sdl_is_done kc hs scene st [SDL_Event.key kind sym timestamp key_repeat]).calls
            = [HandlerCall.key_handler (get_keycode kc sym) kind held_time scene])
    ∧ (¬ (hs.key_handler = true ∧ (sym = SDLK_LEFT ∨ sym = SDLK_UP ∨ sym = SDLK_RIGHT ∨ sym = SDLK_DOWN
        ∨ sym = SDLK_SPACE ∨ sym = SDLK_n ∨ (-128 ≤ sym ∧ sym ≤ 127 ∧ sym ≠ 0))) →
          (sdl_is_done kc hs scene st [SDL_Event.key kind sym timestamp key_repeat]).calls = []) := by
  have hr := get_keycode_ne_zero_iff kc sym hk
  refine ⟨?_, ?_, ?_⟩
  · rw [← hr]; simp
  · rintro ⟨hh, hrec⟩
    have hne := hr.mpr hrec
    rw [sdl_is_done_key, sdl_is_done_nil]
    cases key_repeat
    · exact ⟨_, by rw [key_case_non_repeat kc hs scene st kind sym timestamp hh hne]; rfl⟩
    · exact ⟨_, by rw [key_case_repeat kc hs scene st kind sym timestamp hh hne]; rfl⟩
  · intro hn
    have hn2 : ¬ (hs.key_handler = true ∧ get_keycode kc sym ≠ 0) := by
      rintro ⟨a, b⟩
      exact hn ⟨a, hr.mp b⟩
    rw [sdl_is_done_key, sdl_is_done_nil,
      key_case_unhandled kc hs scene st kind sym timestamp key_repeat hn2]
    rfl

theorem key_handler_called_iff_recognized_witness :
    ∃ held_time : ℚ,
      (sdl_is_done KeyConstants.sample Handlers.all 0 InputState.initial
          [SDL_Event.key key_event_type_t.KEY_PRESSED 27 0 false]).calls
        = [HandlerCall.key_handler (get_keycode KeyConstants.sample 27)
            key_event_type_t.KEY_PRESSED held_time 0] :=
  (key_handler_called_iff_recognized KeyConstants.sample Handlers.all 0 InputState.initial
    key_event_type_t.KEY_PRESSED 27 0 false (by decide)).2.1
    ⟨rfl, by simp⟩

/-! ## Held time -/

/-- What `sdl_draw_polygon` does when its assertions hold and a texture is
supplied. -/
theorem sdl_draw_polygon_textured (s : SdlState) (points : List vector_t) (color : rgb_color_t)
    (texture : SDL_Surface) (rect : SDL_Rect)
    (hn : 3 ≤ points.length)
    (hc : (0 ≤ color.r ∧ color.r ≤ 1) ∧ (0 ≤ color.g ∧ color.g ≤ 1)
      ∧ (0 ≤ color.b ∧ color.b ≤ 1)) :
    sdl_draw_polygon s points color texture true rect = some
      { s with
        rect_img := s.rect_img ++ [rect],
        texture_img := s.texture_img ++ [SDL_CreateTextureFromSurface texture],
        rendered := s.rendered ++
          [RenderCmd.filledPolygonRGBA
            (points.map fun vertex =>
              to_int16 (double_to_int (get_window_position s vertex (get_window_center s)).x))
            (points.map fun vertex =>
              to_int16 (double_to_int (get_window_position s vertex (get_window_center s)).y))
            points.length
            (double_to_int (color.r * 255)) (double_to_int (color.g * 255))
            (double_to_int (color.b * 255)) 255,
           RenderCmd.RenderCopy (SDL_CreateTextureFromSurface texture) rect] } := by
  unfold sdl_draw_polygon
  simp only [if_pos (And.intro hn hc)]
  simp

theorem zipWith_renderCopy_append (textures : List SDL_Texture) (rects : List SDL_Rect)
    (texture : SDL_Texture) (rect : SDL_Rect) (hl : textures.length = rects.length) :
    List.zipWith RenderCmd.RenderCopy (textures ++ [texture]) (rects ++ [rect])
      = List.zipWith RenderCmd.RenderCopy textures rects ++ [RenderCmd.RenderCopy texture rect] := by
  rw [List.zipWith_append _ _ _ _ _ hl]
  rfl

/-- C7, as the code has it: a call of `sdl_draw_polygon` with a texture supplied
issues the filled polygon and then a render-copy of the uploaded texture to its
rect, during the call; it also appends the texture and the rect to the
image-overlay queue (`texture_img`, `rect_img`), leaving the text queue alone,
so that the next `sdl_show` render-copies the texture a second time, as the
last overlay before the frame is presented. -/
theorem textured_polygon_drawn_and_queued (s : SdlState) (points : List vector_t)
    (color : rgb_color_t) (texture : SDL_Surface) (rect : SDL_Rect)
    (hn : 3 ≤ points.length)
    (hc : (0 ≤ color.r ∧ color.r ≤ 1) ∧ (0 ≤ color.g ∧ color.g ≤ 1)
      ∧ (0 ≤ color.b ∧ color.b ≤ 1))
    (hq : s.texture_img.length = s.rect_img.length) :
    ∃ s1 : SdlState, sdl_draw_polygon s points color texture true rect = some s1
      ∧ s1.rendered = s.rendered ++
          [RenderCmd.filledPolygonRGBA
            (points.map fun vertex =>
              to_int16 (double_to_int (get_window_position s vertex (get_window_center s)).x))
            (points.map fun vertex =>
              to_int16 (double_to_int (get_window_position s vertex (get_window_center s)).y))
            points.length
            (double_to_int (color.r * 255)) (double_to_int (color.g * 255))
            (double_to_int (color.b * 255)) 255,
           RenderCmd.RenderCopy (SDL_CreateTextureFromSurface texture) rect]
      ∧ s1.texture_img = s.texture_img ++ [SDL_CreateTextureFromSurface texture]
      ∧ s1.rect_img = s.rect_img ++ [rect]
      ∧ s1.texture_text = s.texture_text ∧ s1.rect_text = s.rect_text
      ∧ (sdl_show s1).rendered = s1.rendered
          ++ [RenderCmd.SetRenderDrawColor 0 0 0 255,
              RenderCmd.RenderDrawRect (sdl_show_boundary s1)]
          ++ List.zipWith RenderCmd.RenderCopy s.texture_text s.rect_text
          ++ List.zipWith RenderCmd.RenderCopy s.texture_img s.rect_img
          ++ [RenderCmd.RenderCopy (SDL_CreateTextureFromSurface texture) rect,
              RenderCmd.RenderPresent] := by
  refine ⟨_, sdl_draw_polygon_textured s points color texture rect hn hc, rfl, rfl, rfl, rfl,
    rfl, ?_⟩
  simp only [sdl_show, zipWith_renderCopy_append _ _ _ _ hq, List.append_assoc,
    List.singleton_append, List.cons_append, List.nil_append]

theorem textured_polygon_drawn_and_queued_witness :
    ∃ s1 : SdlState,
      sdl_draw_polygon
          { center := ⟨500, 250⟩, max_diff := ⟨500, 250⟩, window_width := 1000,
            window_height := 500, texture_text := [], rect_text := [], texture_img := [],
            rect_img := [], rendered := [] }
          [⟨0, 0⟩, ⟨1000, 0⟩, ⟨0, 500⟩] ⟨1, 0, 0⟩ ⟨7⟩ true ⟨0, 0, 10, 10⟩ = some s1
      ∧ s1.texture_img = [] ++ [SDL_CreateTextureFromSurface ⟨7⟩]
      ∧ s1.rect_img = [] ++ [⟨0, 0, 10, 10⟩] := by
  obtain ⟨s1, h1, _, h3, h4, _⟩ := textured_polygon_drawn_and_queued
    { center := ⟨500, 250⟩, max_diff := ⟨500, 250⟩, window_width := 1000,
      window_height := 500, texture_text := [], rect_text := [], texture_img := [],
      rect_img := [], rendered := [] }
    [⟨0, 0⟩, ⟨1000, 0⟩, ⟨0, 500⟩] ⟨1, 0, 0⟩ ⟨7⟩ ⟨0, 0, 10, 10⟩
    (by simp) (by norm_num) rfl
  exact ⟨s1, h1, h3, h4⟩

/-- C7 as stated fails: after `sdl_init` with bounds (0,0)-(1000,500), drawing
a red triangle with texture surface 7 and rect (0,0,10,10) issues two render
commands during the call, the filled polygon and a render-copy of the
texture. -/
theorem texture_drawn_immediately_counterexample :
    ∃ s0 s1 : SdlState, sdl_init ⟨0, 0⟩ ⟨1000, 500⟩ = some s0
      ∧ sdl_draw_polygon s0 [⟨0, 0⟩, ⟨1000, 0⟩, ⟨0, 500⟩] ⟨1, 0, 0⟩ ⟨7⟩ true ⟨0, 0, 10, 10⟩
          = some s1
      ∧ s1.rendered
          = [RenderCmd.filledPolygonRGBA [0, 1000, 0] [500, 500, 0] 3 255 0 0 255,
             RenderCmd.RenderCopy (SDL_CreateTextureFromSurface ⟨7⟩) ⟨0, 0, 10, 10⟩]
      ∧ s1.rendered
          ≠ [RenderCmd.filledPolygonRGBA [0, 1000, 0] [500, 500, 0] 3 255 0 0 255] := by
  have r0 : c_round (0 : ℚ) = 0 := by simpa using c_round_intCast 0
  have r1 : c_round (1000 : ℚ) = 1000 := by simpa using c_round_intCast 1000
  have r2 : c_round (500 : ℚ) = 500 := by simpa using c_round_intCast 500
  have d0 : double_to_int (0 : ℚ) = 0 := by simpa using double_to_int_intCast 0
  have d1 : double_to_int (1000 : ℚ) = 1000 := by simpa using double_to_int_intCast 1000
  have d2 : double_to_int (500 : ℚ) = 500 := by simpa using double_to_int_intCast 500
  have d3 : double_to_int (255 : ℚ) = 255 := by simpa using double_to_int_intCast 255
  have e : ∀ s1 : SdlState,
      s1.rendered
          = [RenderCmd.filledPolygonRGBA [0, 1000, 0] [500, 500, 0] 3 255 0 0 255,
             RenderCmd.RenderCopy (SDL_CreateTextureFromSurface ⟨7⟩) ⟨0, 0, 10, 10⟩] →
      s1.rendered
          ≠ [RenderCmd.filledPolygonRGBA [0, 1000, 0] [500, 500, 0] 3 255 0 0 255] := by
    intro s1 h
    rw [h]
    simp
  refine ⟨_, _, sdl_init_eq (by norm_num) (by norm_num),
    sdl_draw_polygon_textured _ _ _ _ _ (by simp) (by norm_num), ?_, ?_⟩
  · simp only [get_window_position, get_window_center, get_scene_scale,
      vec_multiply, vec_add, vec_subtract, WINDOW_WIDTH, WINDOW_HEIGHT, List.map, List.length]
    norm_num [r0, r1, r2, d0, d1, d2, d3, to_int16]
  · apply e
    simp only [get_window_position, get_window_center, get_scene_scale,
      vec_multiply, vec_add, vec_subtract, WINDOW_WIDTH, WINDOW_HEIGHT, List.map, List.length]
    norm_num [r0, r1, r2, d0, d1, d2, d3, to_int16]

/-! ## The overlay queues stay paired -/

theorem sdl_draw_polygon_keeps_pairs (s s1 : SdlState) (points : List vector_t)
    (color : rgb_color_t) (texture : SDL_Surface) (has_texture : Bool) (rect : SDL_Rect)
    (h : sdl_draw_polygon s points color texture has_texture rect = some s1)
    (himg : s.texture_img.length = s.rect_img.length)
    (htext : s.texture_text.length = s.rect_text.length) :
    s1.texture_img.length = s1.rect_img.length
    ∧ s1.texture_text.length = s1.rect_text.length := by
  unfold sdl_draw_polygon at h
  split_ifs at h <;> simp at h <;> obtain ⟨_, h⟩ := h <;> subst h <;> simp [himg, htext]

theorem sdl_draw_text_keeps_pairs (s : SdlState) (surface : SDL_Surface) (x y w h : ℚ)
    (himg : s.texture_img.length = s.rect_img.length)
    (htext : s.texture_text.length = s.rect_text.length) :
    (sdl_draw_text s surface x y w h).texture_img.length
        = (sdl_draw_text s surface x y w h).rect_img.length
    ∧ (sdl_draw_text s surface x y w h).texture_text.length
        = (sdl_draw_text s surface x y w h).rect_text.length := by
  simp [sdl_draw_text, himg, htext]

theorem sdl_show_empties_queues (s : SdlState) :
    (sdl_show s).texture_text = [] ∧ (sdl_show s).rect_text = []
    ∧ (sdl_show s).texture_img = [] ∧ (sdl_show s).rect_img = [] := by
  simp [sdl_show]

/-! ## Tick timer -/

theorem time_since_last_tick_first (now : ℤ) : time_since_last_tick 0 now = (0, now) := by
  simp [time_since_last_tick]

theorem time_since_last_tick_later (last_clock now : ℤ) (h : last_clock ≠ 0) :
    time_since_last_tick last_clock now
      = (((now - last_clock : ℤ) : ℚ) / CLOCKS_PER_SEC, now) := by
  simp [time_since_last_tick, h]

/-- C8 on a failing input: with the clock readings 0 and then 1000000, the
second call of `time_since_last_tick` returns 0, although one second of
processor time, (1000000 - 0) / CLOCKS_PER_SEC = 1, separates it from the
first call. -/
theorem tick_after_zero_reading :
    tick_calls 0 [0, 1000000] = ([0, 0], 1000000)
    ∧ (((1000000 - 0 : ℤ) : ℚ) / CLOCKS_PER_SEC = 1) := by
  constructor
  · simp [tick_calls, time_since_last_tick]
  · norm_num [CLOCKS_PER_SEC]

theorem tick_calls_two (c1 c2 : ℤ) (h : c1 ≠ 0) :
    tick_calls 0 [c1, c2] = ([0, ((c2 - c1 : ℤ) : ℚ) / CLOCKS_PER_SEC], c2) := by
  simp [tick_calls, time_since_last_tick, h]

theorem tick_calls_last_clock (last_clock : ℤ) (readings : List ℤ) :
    (tick_calls last_clock readings).2 = (readings.getLast?).getD last_clock := by
  induction readings generalizing last_clock with
  | nil => rfl
  | cons now later ih =>
    have h : (tick_calls last_clock (now :: later)).2 = (tick_calls now later).2 := rfl
    rw [h, ih now]
    cases later <;> simp [List.getLast?]

end SdlWrapper
